import Mathlib

/-!
# Octchat: identity, signatures and the signature-gated relay

A shallow embedding of `src/octid.js` (client identity and signing),
`src/octraClient.js` (relay-side verification) and `src/index.js` (the relay's
`register`, `sendMessage` and `disconnect` handlers), followed by theorems about them.

Conventions of the embedding:
* a JavaScript value received over the wire is a `JVal`;
* a call that may throw returns `Except JErr _`, `try { .. } catch` is `tryCatch`;
* a `Uint8Array` is a list of bytes `Fin 256`;
* a string is a Lean `String` (sequence of code points);
* the primitives of the host (`crypto.subtle`, `tweetnacl`, `JSON`, the coercions of
  `Buffer.from` and `TextEncoder` on non-strings) are the fields of a `Platform`;
  base64 (`btoa`, `atob`, `Buffer.from(_, 'base64')`) and UTF-8 are modelled concretely.
-/

namespace Octchat

/-! ## JavaScript values and errors -/

/-- The exceptions the modelled code can raise. -/
inductive JErr where
  | typeError
  | syntaxError
  | invalidCharacterError
  | operationError
deriving DecidableEq, Repr

deriving instance DecidableEq for Except

/-- A JavaScript value as it arrives in a socket.io event: JSON data, plus `undefined`
for an absent argument or property. Numbers are restricted to integers, which is all the
handlers ever move around (`timestamp`). -/
inductive JVal where
  | undefined
  | null
  | bool (b : Bool)
  | num (n : Int)
  | str (s : String)
  | arr (items : List JVal)
  | obj (fields : List (String × JVal))

/-- A `Uint8Array`. -/
abbrev Bytes := List (Fin 256)

/-- Control flow of `try { body } catch (error) { handler }`. -/
def tryCatch {α : Type} (body : Except JErr α) (handler : JErr → Except JErr α) : Except JErr α :=
  match body with
  | .ok a => .ok a
  | .error e => handler e

/-- Property read `value.key` for the keys the handlers use (`from`, `content`,
`signature`, `publicKey`): it throws a `TypeError` on `null` and `undefined`, looks the
key up in an object, and is `undefined` on every other value (no primitive wrapper or
array has one of these keys). -/
def getProp (value : JVal) (key : String) : Except JErr JVal :=
  match value with
  | .undefined => .error .typeError
  | .null => .error .typeError
  | .obj fields => .ok ((fields.lookup key).getD .undefined)
  | _ => .ok .undefined

/-- Assignment of one property in an object literal: an existing key keeps its position
and takes the new value, a new key is appended. -/
def setProp (fields : List (String × JVal)) (key : String) (value : JVal) :
    List (String × JVal) :=
  match fields with
  | [] => [(key, value)]
  | (k, v) :: rest =>
    if k = key then (key, value) :: rest else (k, v) :: setProp rest key value

/-- Own enumerable properties copied by the spread `{...value}` of an object. The
`sendMessage` handler only reaches its spread with an object, see `getProp`. -/
def ownProps (value : JVal) : List (String × JVal) :=
  match value with
  | .obj fields => fields
  | _ => []

/-- The call `content.substring(0, 30)`: a `TypeError` unless `content` is a string. The
handler only logs the result, so all that matters is whether the call throws. -/
def substring (content : JVal) (start stop : Nat) : Except JErr String :=
  match content with
  | .str s => .ok ⟨(s.data.drop start).take (stop - start)⟩
  | _ => .error .typeError

/-! ## Base64 and UTF-8 -/

/-- The character of a 6-bit value in the standard base64 alphabet. -/
def b64Char (n : Nat) : Char :=
  if n < 26 then Char.ofNat (65 + n)
  else if n < 52 then Char.ofNat (71 + n)
  else if n < 62 then Char.ofNat (n - 4)
  else if n = 62 then '+'
  else '/'

/-- The 6-bit groups of a byte sequence; the last group of an incomplete triple is
padded with zero bits. -/
def sextetsOf : Bytes → List Nat
  | a :: b :: c :: rest =>
    a.val / 4 :: (a.val % 4 * 16 + b.val / 16) :: (b.val % 16 * 4 + c.val / 64) ::
      c.val % 64 :: sextetsOf rest
  | [a, b] => [a.val / 4, a.val % 4 * 16 + b.val / 16, b.val % 16 * 4]
  | [a] => [a.val / 4, a.val % 4 * 16]
  | [] => []

/-- Standard base64 with `=` padding (RFC 4648), as produced by `btoa`. -/
def b64Encode (bytes : Bytes) : List Char :=
  (sextetsOf bytes).map b64Char ++ List.replicate ((3 - bytes.length % 3) % 3) '='

/-- The host function `btoa`: it throws `InvalidCharacterError` when the binary string
holds a code point above 255 and otherwise encodes one byte per character. -/
def btoa (binary : String) : Except JErr String :=
  if binary.data.all (fun c => decide (c.toNat < 256)) then
    .ok ⟨b64Encode (binary.data.map (fun c => Fin.ofNat c.toNat))⟩
  else .error .invalidCharacterError

/-- The value of a character in Node's base64 decoding table, which accepts the standard
and the URL-safe alphabet. -/
def unbase64 (c : Char) : Option Nat :=
  let n := c.toNat
  if 65 ≤ n ∧ n ≤ 90 then some (n - 65)
  else if 97 ≤ n ∧ n ≤ 122 then some (n - 71)
  else if 48 ≤ n ∧ n ≤ 57 then some (n + 4)
  else if n = 43 ∨ n = 45 then some 62
  else if n = 47 ∨ n = 95 then some 63
  else none

/-- Bytes of a sequence of 6-bit groups: four groups give three bytes, a trailing pair
one byte, a trailing triple two bytes, a single trailing group nothing. -/
def bytesOfSextets : List Nat → Bytes
  | a :: b :: c :: d :: rest =>
    Fin.ofNat (a * 4 + b / 16) :: Fin.ofNat (b % 16 * 16 + c / 4) ::
      Fin.ofNat (c % 4 * 64 + d) :: bytesOfSextets rest
  | [a, b, c] => [Fin.ofNat (a * 4 + b / 16), Fin.ofNat (b % 16 * 16 + c / 4)]
  | [a, b] => [Fin.ofNat (a * 4 + b / 16)]
  | _ => []

/-- Node's `Buffer.from(text, 'base64')` on a string, after its documented behaviour: it
never throws, ignores whitespace and every other character outside the two alphabets,
and stops at the first `=`. -/
def bufferFromBase64 (text : String) : Bytes :=
  bytesOfSextets ((text.data.takeWhile (fun c => c != '=')).filterMap unbase64)

/-- Removal of one or two trailing `=` (step 2 of forgiving-base64 decode). -/
def stripPadding (data : List Char) : List Char :=
  let dropOne (d : List Char) : List Char := if d.getLast? = some '=' then d.dropLast else d
  dropOne (dropOne data)

/-- ASCII whitespace: TAB, LF, FF, CR and SPACE. -/
def isAsciiWhitespace (c : Char) : Bool :=
  c.toNat = 9 || c.toNat = 10 || c.toNat = 12 || c.toNat = 13 || c.toNat = 32

/-- Membership in the standard base64 alphabet. -/
def isStdBase64 (c : Char) : Bool :=
  (unbase64 c).isSome && c.toNat != 45 && c.toNat != 95

/-- The host function `atob` (forgiving-base64 decode): whitespace is removed, padding is
stripped when the length is a multiple of four, and a length of 1 modulo 4 or a character
outside the standard alphabet throws `InvalidCharacterError`. The result is the binary
string, one character per byte. -/
def atob (text : String) : Except JErr String :=
  let data := text.data.filter (fun c => !isAsciiWhitespace c)
  let data := if data.length % 4 = 0 then stripPadding data else data
  if data.length % 4 = 1 then .error .invalidCharacterError
  else if data.all isStdBase64 then
    .ok ⟨(bytesOfSextets (data.filterMap unbase64)).map (fun b => Char.ofNat b.val)⟩
  else .error .invalidCharacterError

/-- UTF-8 encoding of one code point. -/
def utf8EncodeChar (c : Char) : Bytes :=
  let n := c.toNat
  if n < 128 then [Fin.ofNat n]
  else if n < 2048 then [Fin.ofNat (192 + n / 64), Fin.ofNat (128 + n % 64)]
  else if n < 65536 then
    [Fin.ofNat (224 + n / 4096), Fin.ofNat (128 + n / 64 % 64), Fin.ofNat (128 + n % 64)]
  else
    [Fin.ofNat (240 + n / 262144), Fin.ofNat (128 + n / 4096 % 64),
      Fin.ofNat (128 + n / 64 % 64), Fin.ofNat (128 + n % 64)]

/-- UTF-8 encoding of a string. -/
def utf8Encode (s : String) : Bytes :=
  s.data.flatMap utf8EncodeChar

/-! ## The host platform -/

/-- The primitives of the host that the code calls and the repository does not define.
Theorems hold for every platform; `testPlatform` below is one instance. -/
structure Platform where
  /-- Digest `crypto.subtle.digest('SHA-256', data)`. -/
  sha256 : Bytes → Bytes
  /-- Signature `crypto.subtle.importKey('pkcs8', key, Ed25519)` followed by
  `crypto.subtle.sign`, on the key bytes and the message bytes. -/
  subtleSign : Bytes → Bytes → Except JErr Bytes
  /-- Public key `crypto.subtle.importKey('raw', key, Ed25519)` followed by
  `crypto.subtle.verify`, on key, signature and message bytes. -/
  subtleVerify : Bytes → Bytes → Bytes → Except JErr Bool
  /-- Core check of tweetnacl (`crypto_sign_open(..) >= 0`) on message, signature and
  public key of the right sizes. -/
  cryptoSignOpen : Bytes → Bytes → Bytes → Bool
  /-- Result of `Buffer.from(value, 'base64')` when `value` is an array or an object. -/
  bufferFromObject : JVal → Except JErr Bytes
  /-- Result of `new TextEncoder().encode(input)` when `input` is neither a string nor
  `undefined`: the UTF-8 bytes of its string conversion. -/
  encodeCoerced : JVal → Except JErr Bytes
  /-- Function `JSON.parse` on a string. -/
  jsonParse : String → Except JErr JVal
  /-- Function `JSON.stringify` on a record of strings. -/
  jsonStringify : JVal → String

/-- The call `new TextEncoder().encode(input)`: the argument defaults to the empty
string, a string is encoded as UTF-8, any other value is first converted to a string. -/
def textEncode (P : Platform) (input : JVal) : Except JErr Bytes :=
  match input with
  | .undefined => .ok []
  | .str s => .ok (utf8Encode s)
  | v => P.encodeCoerced v

/-- Node's `Buffer.from(value, 'base64')`: a string is decoded, `undefined`, `null`,
booleans and numbers throw a `TypeError`, arrays and objects are left to the platform. -/
def bufferFrom (P : Platform) (value : JVal) : Except JErr Bytes :=
  match value with
  | .str s => .ok (bufferFromBase64 s)
  | .arr items => P.bufferFromObject (.arr items)
  | .obj fields => P.bufferFromObject (.obj fields)
  | _ => .error .typeError

/-- tweetnacl's `nacl.sign.detached.verify(msg, sig, publicKey)`: it throws on a signature
that is not 64 bytes or a public key that is not 32 bytes, and otherwise returns the
boolean of the core check. -/
def naclSignDetachedVerify (P : Platform) (msg sig publicKey : Bytes) : Except JErr Bool :=
  if sig.length ≠ 64 then .error .operationError
  else if publicKey.length ≠ 32 then .error .operationError
  else .ok (P.cryptoSignOpen msg sig publicKey)

/-! ## `src/octid.js` -/

/-- Helper `arrayBufferToBase64(buffer)`: the loop appends `String.fromCharCode(bytes[i])`
for every byte and the result goes through `btoa`. -/
def arrayBufferToBase64 (buffer : Bytes) : Except JErr String :=
  let binary : String := buffer.foldl (fun acc b => acc ++ String.singleton (Char.ofNat b.val)) ""
  btoa binary

/-- Helper `base64ToArrayBuffer(base64)`: `atob`, then one byte per `charCodeAt(i)`
(storing into a `Uint8Array` reduces modulo 256). -/
def base64ToArrayBuffer (base64 : String) : Except JErr Bytes := do
  let binaryString ← atob base64
  pure (binaryString.data.map (fun c => Fin.ofNat c.toNat))

/-- The identity record built by `generateOctID`. -/
structure Identity where
  octID : String
  publicKey : String
  privateKey : String
  createdAt : String
deriving DecidableEq, Repr

/-- The identity record as a JavaScript object. -/
def Identity.toJVal (identity : Identity) : JVal :=
  .obj [("octID", .str identity.octID), ("publicKey", .str identity.publicKey),
    ("privateKey", .str identity.privateKey), ("createdAt", .str identity.createdAt)]

/-- The entry `octchat_identity` of `localStorage`: `none` when nothing is stored. -/
abbrev Storage := Option String

/-- Function `generateOctID()`. The outcome of `generateKey` and of the two `exportKey`
calls is the argument `keyPair` (raw public key, PKCS#8 private key), the clock reading
is `now`; a failure of those platform calls is rethrown before any identifier exists.
Returns the identity and the new content of the storage entry. -/
def generateOctID (P : Platform) (keyPair : Bytes × Bytes) (now : String) :
    Except JErr (Identity × Storage) :=
  tryCatch (do
    let publicKeyArray := keyPair.1
    let publicKeyBase64 ← arrayBufferToBase64 publicKeyArray
    let hashArray := P.sha256 publicKeyArray
    let hashBase64 ← arrayBufferToBase64 hashArray
    let octID : String := "oct" ++ ⟨hashBase64.data.take 42⟩
    let privateKeyBase64 ← arrayBufferToBase64 keyPair.2
    let identity : Identity :=
      { octID := octID, publicKey := publicKeyBase64, privateKey := privateKeyBase64,
        createdAt := now }
    pure (identity, some (P.jsonStringify identity.toJVal)))
    (fun error => .error error)

/-- Function `getStoredIdentity()`: `stored ? JSON.parse(stored) : null`, where `stored`
is `null` when nothing is stored; `null` and the empty string are falsy. -/
def getStoredIdentity (P : Platform) (storage : Storage) : Except JErr JVal :=
  match storage with
  | none => .ok .null
  | some stored => if stored = "" then .ok .null else P.jsonParse stored

/-- Function `signMessage(message, privateKeyBase64)`; any exception is rethrown. -/
def signMessage (P : Platform) (message : JVal) (privateKeyBase64 : String) :
    Except JErr String :=
  tryCatch (do
    let privateKeyBuffer ← base64ToArrayBuffer privateKeyBase64
    let messageBuffer ← textEncode P message
    let signature ← P.subtleSign privateKeyBuffer messageBuffer
    arrayBufferToBase64 signature)
    (fun error => .error error)

/-- Function `verifySignature(message, signatureBase64, publicKeyBase64)` of the client;
any exception gives `false`. -/
def verifySignature (P : Platform) (message : JVal) (signatureBase64 publicKeyBase64 : String) :
    Except JErr Bool :=
  tryCatch (do
    let publicKeyBuffer ← base64ToArrayBuffer publicKeyBase64
    let messageBuffer ← textEncode P message
    let signatureBuffer ← base64ToArrayBuffer signatureBase64
    P.subtleVerify publicKeyBuffer signatureBuffer messageBuffer)
    (fun _ => .ok false)

/-! ## `src/octraClient.js` -/

/-- Method `OctraClient.base64ToUint8Array(base64)`. -/
def base64ToUint8Array (P : Platform) (base64 : JVal) : Except JErr Bytes :=
  bufferFrom P base64

/-- Method `OctraClient.verifyMessageSignature(message, signatureBase64, publicKeyBase64)`:
the whole body is inside `try`, the `catch` returns `false`. -/
def verifyMessageSignature (P : Platform) (message signatureBase64 publicKeyBase64 : JVal) :
    Except JErr Bool :=
  tryCatch (do
    let signature ← base64ToUint8Array P signatureBase64
    let publicKey ← base64ToUint8Array P publicKeyBase64
    let messageBytes ← textEncode P message
    let isValid ← naclSignDetachedVerify P messageBytes signature publicKey
    pure isValid)
    (fun _ => .ok false)

/-! ## `src/index.js`: the relay -/

/-- The handle `socket.id` of a session. -/
abbrev SocketId := String

/-- The `Map` `connectedUsers` (octID to `socket.id`) as its entries in insertion order.
The identifier of `register` is a string. -/
abbrev Registry := List (String × SocketId)

/-- The two mutable module variables of the relay. -/
structure RelayState where
  messages : List JVal
  connectedUsers : Registry

/-- The state at start-up: `messages = []`, `connectedUsers = new Map()`. -/
def RelayState.initial : RelayState :=
  { messages := [], connectedUsers := [] }

/-- An outgoing event: `socket.emit(event, payload)` reaches the session of the handler,
`io.emit(event, payload)` reaches every connected session. -/
inductive Emit where
  | socketEmit (socket : SocketId) (event : String) (payload : JVal)
  | ioEmit (event : String) (payload : JVal)

/-- The sessions an outgoing event is delivered to, given the connected sessions. -/
def Emit.deliveries (connected : List SocketId) : Emit → List (SocketId × String × JVal)
  | .socketEmit socket event payload => [(socket, event, payload)]
  | .ioEmit event payload => connected.map (fun socket => (socket, event, payload))

/-- The name of an outgoing event. -/
def Emit.event : Emit → String
  | .socketEmit _ event _ => event
  | .ioEmit event _ => event

/-- Method `Map.prototype.set`: an existing key keeps its position. -/
def mapSet (m : Registry) (key : String) (value : SocketId) : Registry :=
  match m with
  | [] => [(key, value)]
  | (k, v) :: rest => if k = key then (k, value) :: rest else (k, v) :: mapSet rest key value

/-- Method `Map.prototype.get`. -/
def mapGet (m : Registry) (key : String) : Option SocketId :=
  match m with
  | [] => none
  | (k, v) :: rest => if k = key then some v else mapGet rest key

/-- Method `Map.prototype.delete`. -/
def mapDelete (m : Registry) (key : String) : Registry :=
  match m with
  | [] => []
  | (k, v) :: rest => if k = key then rest else (k, v) :: mapDelete rest key

/-- Handler `socket.on('register', (octID) => ..)`. -/
def register (st : RelayState) (socket : SocketId) (octID : String) :
    RelayState × List Emit :=
  let connectedUsers := mapSet st.connectedUsers octID socket
  ({ st with connectedUsers := connectedUsers },
    [.socketEmit socket "messageHistory" (.arr st.messages)])

/-- The payload `{ message: text }` of an `error` event. -/
def errorPayload (text : String) : JVal :=
  .obj [("message", .str text)]

/-- The object `{...message, id, verified: true}`. -/
def storedMessageOf (message : JVal) (id : String) : JVal :=
  .obj (setProp (setProp (ownProps message) "id" (.str id)) "verified" (.bool true))

/-- The `try` block of the `sendMessage` handler. The value of
`Date.now() + Math.random().toString(36).substr(2, 9)` is the argument `id`. Nothing
after `messages.push` can throw, so an exception leaves the state as it was. -/
def sendMessageBody (P : Platform) (st : RelayState) (socket : SocketId) (message : JVal)
    (id : String) : Except JErr (RelayState × List Emit) := do
  let _ ← getProp message "from"
  let content ← getProp message "content"
  let _ ← substring content 0 30
  let signature ← getProp message "signature"
  let publicKey ← getProp message "publicKey"
  let isValid ← verifyMessageSignature P content signature publicKey
  if !isValid then
    pure (st, [.socketEmit socket "error" (errorPayload "Invalid signature - message rejected")])
  else
    let storedMessage := storedMessageOf message id
    let messages := st.messages ++ [storedMessage]
    let messages := if messages.length > 100 then messages.drop 1 else messages
    pure ({ st with messages := messages }, [.ioEmit "message" storedMessage])

/-- Handler `socket.on('sendMessage', async (message) => ..)`: the `catch` reports
`Failed to process message` to the sender. -/
def sendMessage (P : Platform) (st : RelayState) (socket : SocketId) (message : JVal)
    (id : String) : RelayState × List Emit :=
  match sendMessageBody P st socket message id with
  | .ok result => result
  | .error _ => (st, [.socketEmit socket "error" (errorPayload "Failed to process message")])

/-- The loop of the `disconnect` handler over `connectedUsers.entries()`: the first entry
whose value is `socket.id` is deleted and the loop ends with `break`. -/
def disconnectLoop (entries : Registry) (socket : SocketId) (connectedUsers : Registry) :
    Registry :=
  match entries with
  | [] => connectedUsers
  | (octID, socketId) :: rest =>
    if socketId = socket then mapDelete connectedUsers octID
    else disconnectLoop rest socket connectedUsers

/-- Handler `socket.on('disconnect', () => ..)`. -/
def disconnect (st : RelayState) (socket : SocketId) : RelayState × List Emit :=
  ({ st with connectedUsers := disconnectLoop st.connectedUsers socket st.connectedUsers }, [])

/-- An incoming event of one session. -/
inductive Event where
  | register (socket : SocketId) (octID : String)
  | sendMessage (socket : SocketId) (message : JVal) (id : String)
  | disconnect (socket : SocketId)

/-- Dispatch of one incoming event. -/
def step (P : Platform) (st : RelayState) : Event → RelayState × List Emit
  | .register socket octID => register st socket octID
  | .sendMessage socket message id => sendMessage P st socket message id
  | .disconnect socket => disconnect st socket

/-- The relay run on a sequence of events: final state and all outgoing events in order. -/
def run (P : Platform) (st : RelayState) : List Event → RelayState × List Emit
  | [] => (st, [])
  | ev :: rest =>
    let r := step P st ev
    let r2 := run P r.1 rest
    (r2.1, r.2 ++ r2.2)

/-- A state is reachable when some sequence of events leads to it from start-up. -/
def Reachable (P : Platform) (st : RelayState) : Prop :=
  ∃ events, (run P RelayState.initial events).1 = st

/-- The keys of a `Map` are pairwise distinct. -/
def Registry.WellFormed (m : Registry) : Prop :=
  (m.map Prod.fst).Nodup

instance (m : Registry) : Decidable (Registry.WellFormed m) :=
  inferInstanceAs (Decidable (m.map Prod.fst).Nodup)

/-- Whether the handler of `sendMessage` takes the accepting branch for a payload: the
`content` is a string (otherwise the handler throws before it verifies) and
`verifyMessageSignature` on the three fields returns `true`. -/
def passesVerification (P : Platform) (message : JVal) : Bool :=
  match getProp message "content", getProp message "signature", getProp message "publicKey" with
  | .ok (.str content), .ok signature, .ok publicKey =>
    match verifyMessageSignature P (.str content) signature publicKey with
    | .ok true => true
    | _ => false
  | _, _, _ => false

/-- The stored messages of the accepted sends of a sequence of events, in acceptance
order. -/
def acceptedSends (P : Platform) : List Event → List JVal
  | [] => []
  | .sendMessage _ message id :: rest =>
    if passesVerification P message then storedMessageOf message id :: acceptedSends P rest
    else acceptedSends P rest
  | _ :: rest => acceptedSends P rest

/-- The payloads of the `message` broadcasts among outgoing events. -/
def broadcastMessages : List Emit → List JVal
  | [] => []
  | .ioEmit event payload :: rest =>
    if event = "message" then payload :: broadcastMessages rest else broadcastMessages rest
  | _ :: rest => broadcastMessages rest

/-- The last `n` elements of a list. -/
def lastN {α : Type} (n : Nat) (l : List α) : List α :=
  l.drop (l.length - n)

/-! ## A known-answer platform

Every primitive is tabulated on the inputs the examples below use and fails elsewhere.
The key pair is the one of RFC 8032, section 7.1, test 2; the three signatures are the
Ed25519 signatures of the UTF-8 bytes of `r`, `5` and `hello` under that key. The string
conversion of the number 5 is the text `5` and that of `null` is the text `null`, and
`JSON.parse` maps the text `null` to `null`. -/

/-- Raw Ed25519 public key of RFC 8032 test 2. -/
def testPublicKey : Bytes :=
  [61, 64, 23, 195, 232, 67, 137, 90, 146, 183, 10, 167, 77, 27, 126, 188, 156, 152, 44, 207,
    46, 196, 150, 140, 192, 205, 85, 241, 42, 244, 102, 12]

/-- PKCS#8 encoding of the private key of RFC 8032 test 2. -/
def testPrivateKey : Bytes :=
  [48, 46, 2, 1, 0, 48, 5, 6, 3, 43, 101, 112, 4, 34, 4, 32, 76, 205, 8, 155, 40, 255, 150,
    218, 157, 182, 195, 70, 236, 17, 78, 15, 91, 138, 49, 159, 53, 171, 166, 36, 218, 140, 246,
    237, 79, 184, 166, 251]

/-- SHA-256 digest of `testPublicKey`. -/
def testDigest : Bytes :=
  [57, 247, 19, 208, 166, 68, 37, 63, 4, 82, 148, 33, 185, 245, 27, 155, 8, 151, 157, 8, 41,
    89, 89, 196, 243, 153, 14, 230, 23, 245, 19, 159]

/-- Signature of the one-byte message `r` (the signature of RFC 8032 test 2). -/
def testSignatureR : Bytes :=
  [146, 160, 9, 169, 240, 212, 202, 184, 114, 14, 130, 11, 95, 100, 37, 64, 162, 178, 123, 84,
    22, 80, 63, 143, 179, 118, 34, 35, 235, 219, 105, 218, 8, 90, 193, 228, 62, 21, 153, 110,
    69, 143, 54, 19, 208, 241, 29, 140, 56, 123, 46, 174, 180, 48, 42, 238, 176, 13, 41, 22,
    18, 187, 12, 0]

/-- Signature of the one-byte message `5`. -/
def testSignature5 : Bytes :=
  [48, 184, 35, 41, 2, 70, 109, 79, 230, 243, 232, 62, 112, 200, 253, 165, 111, 245, 190, 175,
    37, 242, 1, 167, 174, 159, 64, 65, 37, 30, 206, 100, 192, 114, 251, 177, 152, 10, 167, 41,
    8, 89, 197, 14, 192, 255, 228, 102, 120, 1, 151, 181, 108, 225, 198, 70, 34, 42, 76, 204,
    24, 27, 211, 0]

/-- Signature of the message `hello`. -/
def testSignatureHello : Bytes :=
  [129, 145, 27, 176, 72, 111, 255, 171, 198, 142, 243, 156, 251, 51, 163, 150, 71, 113, 93,
    88, 94, 232, 3, 95, 202, 30, 0, 232, 130, 210, 193, 213, 80, 46, 79, 28, 77, 34, 187, 30,
    128, 84, 100, 35, 175, 162, 234, 89, 118, 39, 135, 208, 139, 153, 114, 32, 141, 4, 217,
    202, 31, 31, 60, 3]

/-- The table of signed messages: message bytes and signature. -/
def testSignatures : List (Bytes × Bytes) :=
  [([114], testSignatureR), ([53], testSignature5),
    ([104, 101, 108, 108, 111], testSignatureHello)]

/-- The known-answer platform. -/
def testPlatform : Platform where
  sha256 data := if data = testPublicKey then testDigest else List.replicate 32 0
  subtleSign key msg :=
    if key = testPrivateKey then
      match testSignatures.lookup msg with
      | some sig => .ok sig
      | none => .error .operationError
    else .error .operationError
  subtleVerify key sig msg :=
    if key.length = 32 then .ok (key = testPublicKey && testSignatures.lookup msg == some sig)
    else .error .operationError
  cryptoSignOpen msg sig publicKey :=
    publicKey = testPublicKey && testSignatures.lookup msg == some sig
  bufferFromObject _ := .error .typeError
  encodeCoerced v :=
    match v with
    | .num 5 => .ok [53]
    | .null => .ok [110, 117, 108, 108]
    | _ => .error .typeError
  jsonParse text := if text = "null" then .ok .null else .error .syntaxError
  jsonStringify _ := "identity"

/-- Base64 text of `testPublicKey`. -/
def testPublicKeyBase64 : String := "PUAXw+hDiVqStwqnTRt+vJyYLM8uxJaMwM1V8Sr0Zgw="

/-- Base64 text of `testPrivateKey`. -/
def testPrivateKeyBase64 : String :=
  "MC4CAQAwBQYDK2VwBCIEIEzNCJso/5banbbDRuwRTg9bijGfNaumJNqM9u1PuKb7"

/-- Base64 text of `testSignatureHello`. -/
def testSignatureHelloBase64 : String :=
  "gZEbsEhv/6vGjvOc+zOjlkdxXVhe6ANfyh4A6ILSwdVQLk8cTSK7HoBUZCOvoupZdieH0IuZciCNBNnKHx88Aw=="

/-- Base64 text of `testSignature5`. -/
def testSignature5Base64 : String :=
  "MLgjKQJGbU/m8+g+cMj9pW/1vq8l8gGnrp9AQSUezmTAcvuxmAqnKQhZxQ7A/+RmeAGXtWzhxkYiKkzMGBvTAA=="

/-- A well-formed signed message `hello` as the client of `App.jsx` sends it. -/
def helloMessage : JVal :=
  .obj [("from", .str "octOfcT0KZEJT8EUpQhufUbmwiXnQgpWVnE85kO5hf1E5"),
    ("publicKey", .str testPublicKeyBase64), ("content", .str "hello"),
    ("signature", .str testSignatureHelloBase64), ("timestamp", .num 1700000000000)]

/-- The state after an accepted send: `push`, then `shift` when the length exceeds 100. -/
def pushBounded (messages : List JVal) (storedMessage : JVal) : List JVal :=
  if (messages ++ [storedMessage]).length > 100 then (messages ++ [storedMessage]).drop 1
  else messages ++ [storedMessage]

/-- The two rejection notices of the handler. -/
def isRejection (payload : JVal) : Prop :=
  payload = errorPayload "Invalid signature - message rejected" ∨
  payload = errorPayload "Failed to process message"

/-- All deliveries of a list of outgoing events, given the connected sessions. -/
def deliver (connected : List SocketId) (emits : List Emit) : List (SocketId × String × JVal) :=
  emits.flatMap (Emit.deliveries connected)

/-- A signed `hello` without the sender identifier `from`. -/
def anonymousMessage : JVal :=
  .obj [("publicKey", .str testPublicKeyBase64), ("content", .str "hello"),
    ("signature", .str testSignatureHelloBase64), ("timestamp", .num 1700000000000)]

/-- A payload whose `content` is the number 5, with the signature of the text `5`. -/
def numericMessage : JVal :=
  .obj [("from", .str "octOfcT0KZEJT8EUpQhufUbmwiXnQgpWVnE85kO5hf1E5"),
    ("publicKey", .str testPublicKeyBase64), ("content", .num 5),
    ("signature", .str testSignature5Base64), ("timestamp", .num 1700000000000)]

/-- One hundred and one well-formed sends of `hello`, the i-th with an identifier of i
characters. -/
def hundredOneSends : List Event :=
  (List.range 101).map (fun i => Event.sendMessage "socketA" helloMessage ⟨List.replicate i 'x'⟩)

/-! ## Base64 round trips -/

set_option maxRecDepth 100000 in
theorem b64Char_spec : ∀ n : Fin 64, unbase64 (b64Char n.val) = some n.val ∧
    (b64Char n.val != '=') = true ∧ isStdBase64 (b64Char n.val) = true ∧
    isAsciiWhitespace (b64Char n.val) = false := by
  decide

set_option maxRecDepth 100000 in
theorem fromCharCode_toNat : ∀ b : Fin 256, (Char.ofNat b.val).toNat = b.val := by
  decide

theorem b64Char_facts {n : Nat} (h : n < 64) : unbase64 (b64Char n) = some n ∧
    (b64Char n != '=') = true ∧ isStdBase64 (b64Char n) = true ∧
    isAsciiWhitespace (b64Char n) = false :=
  b64Char_spec ⟨n, h⟩

theorem sextetsOf_lt (bytes : Bytes) : ∀ x ∈ sextetsOf bytes, x < 64 := by
  induction bytes using sextetsOf.induct with
  | case1 a b c rest ih =>
    intro x hx
    simp only [sextetsOf, List.mem_cons] at hx
    rcases hx with h | h | h | h | h
    · omega
    · omega
    · omega
    · omega
    · exact ih x h
  | case2 a b =>
    intro x hx
    simp only [sextetsOf, List.mem_cons, List.mem_singleton, List.not_mem_nil, or_false] at hx
    omega
  | case3 a =>
    intro x hx
    simp only [sextetsOf, List.mem_cons, List.mem_singleton, List.not_mem_nil, or_false] at hx
    omega
  | case4 => simp [sextetsOf]

theorem bytesOfSextets_sextetsOf (bytes : Bytes) : bytesOfSextets (sextetsOf bytes) = bytes := by
  induction bytes using sextetsOf.induct with
  | case1 a b c rest ih =>
    simp only [sextetsOf, bytesOfSextets, ih]
    have ha := a.isLt; have hb := b.isLt; have hc := c.isLt
    congr 1
    · apply Fin.ext; simp [Fin.ofNat]; omega
    congr 1
    · apply Fin.ext; simp [Fin.ofNat]; omega
    congr 1
    · apply Fin.ext; simp [Fin.ofNat]; omega
  | case2 a b =>
    simp only [sextetsOf, bytesOfSextets]
    have ha := a.isLt; have hb := b.isLt
    congr 1
    · apply Fin.ext; simp [Fin.ofNat]; omega
    congr 1
    · apply Fin.ext; simp [Fin.ofNat]; omega
  | case3 a =>
    simp only [sextetsOf, bytesOfSextets]
    have ha := a.isLt
    congr 1
    · apply Fin.ext; simp [Fin.ofNat]; omega
  | case4 => simp [sextetsOf, bytesOfSextets]

theorem sextetsOf_length (bytes : Bytes) :
    ((sextetsOf bytes).length + (3 - bytes.length % 3) % 3) % 4 = 0 ∧
    (sextetsOf bytes).length % 4 ≠ 1 ∧
    (sextetsOf bytes).length + (3 - bytes.length % 3) % 3 = 4 * ((bytes.length + 2) / 3) := by
  induction bytes using sextetsOf.induct with
  | case1 a b c rest ih =>
    simp only [sextetsOf, List.length_cons]
    omega
  | case2 a b => simp [sextetsOf]
  | case3 a => simp [sextetsOf]
  | case4 => simp [sextetsOf]

theorem filterMap_unbase64_map (l : List Nat) (h : ∀ x ∈ l, x < 64) :
    (l.map b64Char).filterMap unbase64 = l := by
  induction l with
  | nil => rfl
  | cons x rest ih =>
    have hx := (b64Char_facts (h x (List.mem_cons_self x rest))).1
    simp only [List.map_cons, List.filterMap_cons, hx]
    rw [ih (fun y hy => h y (List.mem_cons_of_mem x hy))]

theorem takeWhile_body (l : List Nat) (h : ∀ x ∈ l, x < 64) (k : Nat) :
    (l.map b64Char ++ List.replicate k '=').takeWhile (fun c => c != '=') = l.map b64Char := by
  induction l with
  | nil =>
    cases k with
    | zero => rfl
    | succ k => simp [List.replicate_succ, List.takeWhile_cons]
  | cons x rest ih =>
    have hx := (b64Char_facts (h x (List.mem_cons_self x rest))).2.1
    simp only [List.map_cons, List.cons_append, List.takeWhile_cons, hx, if_true]
    rw [ih (fun y hy => h y (List.mem_cons_of_mem x hy))]

/-- Node's base64 decoding returns the bytes that `btoa` encoded. -/
theorem bufferFromBase64_b64Encode (bytes : Bytes) :
    bufferFromBase64 ⟨b64Encode bytes⟩ = bytes := by
  simp only [bufferFromBase64, b64Encode]
  rw [takeWhile_body _ (sextetsOf_lt bytes), filterMap_unbase64_map _ (sextetsOf_lt bytes),
    bytesOfSextets_sextetsOf]

theorem binary_data (buffer : Bytes) (acc : String) :
    (buffer.foldl (fun acc b => acc ++ String.singleton (Char.ofNat b.val)) acc).data =
      acc.data ++ buffer.map (fun b => Char.ofNat b.val) := by
  induction buffer generalizing acc with
  | nil => simp
  | cons b rest ih =>
    simp only [List.foldl_cons, List.map_cons]
    rw [ih]
    simp [String.data_append, String.singleton]

/-- The helper `arrayBufferToBase64` never throws and returns the standard base64 text. -/
theorem arrayBufferToBase64_eq (buffer : Bytes) :
    arrayBufferToBase64 buffer = .ok ⟨b64Encode buffer⟩ := by
  have hdata := binary_data buffer ""
  simp only [String.data, List.nil_append] at hdata
  have hall : (buffer.map (fun b => Char.ofNat b.val)).all (fun c => decide (c.toNat < 256)) = true := by
    simp only [List.all_eq_true, List.mem_map, decide_eq_true_eq]
    rintro c ⟨b, _, rfl⟩
    rw [fromCharCode_toNat b]
    exact b.isLt
  have hmap : (buffer.map (fun b => Char.ofNat b.val)).map (fun c => (Fin.ofNat c.toNat : Fin 256))
      = buffer := by
    rw [List.map_map]
    conv_rhs => rw [← List.map_id buffer]
    apply List.map_congr_left
    intro b _
    apply Fin.ext
    simp only [Function.comp, fromCharCode_toNat b, Fin.ofNat, id]
    exact Nat.mod_eq_of_lt b.isLt
  simp only [arrayBufferToBase64, btoa, hdata, hall, if_true, hmap]

theorem mem_b64Encode {bytes : Bytes} {c : Char} (h : c ∈ b64Encode bytes) :
    (∃ n, n < 64 ∧ c = b64Char n) ∨ c = '=' := by
  simp only [b64Encode, List.mem_append, List.mem_map, List.mem_replicate] at h
  rcases h with ⟨n, hn, rfl⟩ | ⟨_, rfl⟩
  · exact Or.inl ⟨n, sextetsOf_lt bytes n hn, rfl⟩
  · exact Or.inr rfl

theorem filter_whitespace_b64Encode (bytes : Bytes) :
    (b64Encode bytes).filter (fun c => !isAsciiWhitespace c) = b64Encode bytes := by
  rw [List.filter_eq_self]
  intro c hc
  rcases mem_b64Encode hc with ⟨n, hn, rfl⟩ | rfl
  · simp [(b64Char_facts hn).2.2.2]
  · decide

theorem getLast?_body (l : List Nat) (h : ∀ x ∈ l, x < 64) :
    (l.map b64Char).getLast? ≠ some '=' := by
  intro hlast
  rw [List.getLast?_map] at hlast
  cases hl : l.getLast? with
  | none => rw [hl] at hlast; simp at hlast
  | some x =>
    rw [hl] at hlast
    simp only [Option.map_some', Option.some.injEq] at hlast
    have hx : x ∈ l := by
      obtain ⟨ys, rfl⟩ := List.getLast?_eq_some_iff.mp hl
      simp
    have := (b64Char_facts (h x hx)).2.1
    rw [hlast] at this
    exact absurd this (by decide)

theorem stripPadding_body (l : List Nat) (h : ∀ x ∈ l, x < 64) (k : Nat) (hk : k ≤ 2) :
    stripPadding (l.map b64Char ++ List.replicate k '=') = l.map b64Char := by
  have hb := getLast?_body l h
  have h0 : ∀ d : List Char, d.getLast? ≠ some '=' →
      (if d.getLast? = some '=' then d.dropLast else d) = d := fun d hd => if_neg hd
  have h1 : ∀ d : List Char,
      (if (d ++ ['=']).getLast? = some '=' then (d ++ ['=']).dropLast else d ++ ['=']) = d := by
    intro d
    rw [if_pos (List.getLast?_concat d)]
    simp
  simp only [stripPadding]
  match k, hk with
  | 0, _ =>
    simp only [List.replicate_zero, List.append_nil]
    rw [h0 _ hb, h0 _ hb]
  | 1, _ =>
    have : List.replicate 1 '=' = ['='] := rfl
    rw [this, h1, h0 _ hb]
  | 2, _ =>
    have : l.map b64Char ++ List.replicate 2 '=' = (l.map b64Char ++ ['=']) ++ ['='] := by
      simp [List.replicate]
    rw [this, h1, h1]

/-- The host function `atob` returns the bytes that `btoa` encoded, one per character. -/
theorem atob_b64Encode (bytes : Bytes) :
    atob ⟨b64Encode bytes⟩ = .ok ⟨bytes.map (fun b => Char.ofNat b.val)⟩ := by
  have hlen := sextetsOf_length bytes
  have hlt := sextetsOf_lt bytes
  have hfilter := filter_whitespace_b64Encode bytes
  have hlen0 : (b64Encode bytes).length % 4 = 0 := by
    simp only [b64Encode, List.length_append, List.length_map, List.length_replicate]
    exact hlen.1
  have hstrip : stripPadding (b64Encode bytes) = (sextetsOf bytes).map b64Char :=
    stripPadding_body _ hlt _ (by omega)
  have hlen1 : ((sextetsOf bytes).map b64Char).length % 4 ≠ 1 := by
    rw [List.length_map]; exact hlen.2.1
  have hall : ((sextetsOf bytes).map b64Char).all isStdBase64 = true := by
    simp only [List.all_eq_true, List.mem_map]
    rintro c ⟨n, hn, rfl⟩
    exact (b64Char_facts (hlt n hn)).2.2.1
  simp only [atob, hfilter, hlen0, if_true, hstrip, if_neg hlen1, hall,
    filterMap_unbase64_map _ hlt, bytesOfSextets_sextetsOf]

/-- The helper `base64ToArrayBuffer` inverts `arrayBufferToBase64`. -/
theorem base64ToArrayBuffer_b64Encode (bytes : Bytes) :
    base64ToArrayBuffer ⟨b64Encode bytes⟩ = .ok bytes := by
  have hmap : (bytes.map (fun b => Char.ofNat b.val)).map (fun c => (Fin.ofNat c.toNat : Fin 256))
      = bytes := by
    rw [List.map_map]
    conv_rhs => rw [← List.map_id bytes]
    apply List.map_congr_left
    intro b _
    apply Fin.ext
    simp only [Function.comp, fromCharCode_toNat b, Fin.ofNat, id]
    exact Nat.mod_eq_of_lt b.isLt
  simp only [base64ToArrayBuffer, atob_b64Encode, bind, Except.bind, pure, Except.pure, hmap]

/-! ## Identity and signatures -/

theorem generateOctID_eq (P : Platform) (keyPair : Bytes × Bytes) (now : String) :
    generateOctID P keyPair now =
      .ok ({ octID := "oct" ++ ⟨(b64Encode (P.sha256 keyPair.1)).take 42⟩,
             publicKey := ⟨b64Encode keyPair.1⟩,
             privateKey := ⟨b64Encode keyPair.2⟩,
             createdAt := now },
           some (P.jsonStringify (Identity.toJVal
             { octID := "oct" ++ ⟨(b64Encode (P.sha256 keyPair.1)).take 42⟩,
               publicKey := ⟨b64Encode keyPair.1⟩,
               privateKey := ⟨b64Encode keyPair.2⟩,
               createdAt := now }))) := by
  simp only [generateOctID, arrayBufferToBase64_eq, tryCatch, bind, Except.bind, pure,
    Except.pure]

theorem take42_b64Encode (digest : Bytes) (h : digest.length = 32) :
    ((b64Encode digest).take 42).length = 42 ∧ '=' ∉ (b64Encode digest).take 42 := by
  have hlen := (sextetsOf_length digest).2.2
  rw [h] at hlen
  simp only [Nat.reduceMod, Nat.reduceSub, Nat.reduceAdd, Nat.reduceDiv, Nat.reduceMul] at hlen
  have hs : (sextetsOf digest).length = 43 := by omega
  have htake : (b64Encode digest).take 42 = ((sextetsOf digest).map b64Char).take 42 := by
    simp only [b64Encode]
    rw [List.take_append_of_le_length (by rw [List.length_map]; omega)]
  rw [htake]
  constructor
  · rw [List.length_take, List.length_map, hs]; rfl
  · intro hmem
    have hmem2 := List.mem_of_mem_take hmem
    simp only [List.mem_map] at hmem2
    obtain ⟨n, hn, heq⟩ := hmem2
    have := (b64Char_facts (sextetsOf_lt digest n hn)).2.1
    rw [heq] at this
    exact absurd this (by decide)

/-- C7. For a 32-byte public key and a 32-byte SHA-256 digest, `generateOctID` returns an
identity whose identifier is `oct` followed by the first 42 characters of the base64 text
that `arrayBufferToBase64` gives for the digest of the public key; the identifier is 45
characters long, holds no `=`, and is the same for every run on the same public key. -/
theorem generateOctID_identifier (P : Platform) (keyPair : Bytes × Bytes) (now : String)
    (hkey : keyPair.1.length = 32) (hdigest : (P.sha256 keyPair.1).length = 32) :
    ∃ identity storage hashBase64,
      generateOctID P keyPair now = .ok (identity, storage) ∧
      arrayBufferToBase64 (P.sha256 keyPair.1) = .ok hashBase64 ∧
      hashBase64.data = b64Encode (P.sha256 keyPair.1) ∧
      identity.octID.data = ['o', 'c', 't'] ++ hashBase64.data.take 42 ∧
      identity.octID.length = 45 ∧
      '=' ∉ identity.octID.data ∧
      ∀ (other : Bytes × Bytes) (later : String) (identity2 : Identity) (storage2 : Storage),
        other.1 = keyPair.1 → generateOctID P other later = .ok (identity2, storage2) →
        identity2.octID = identity.octID := by
  have _ := hkey
  obtain ⟨hlen, hpad⟩ := take42_b64Encode (P.sha256 keyPair.1) hdigest
  refine ⟨_, _, ⟨b64Encode (P.sha256 keyPair.1)⟩, generateOctID_eq P keyPair now,
    arrayBufferToBase64_eq _, rfl, ?_, ?_, ?_, ?_⟩
  · simp [String.data_append]
  · have hdata : ("oct" ++ (⟨(b64Encode (P.sha256 keyPair.1)).take 42⟩ : String)).data =
        ['o', 'c', 't'] ++ (b64Encode (P.sha256 keyPair.1)).take 42 := by
      simp [String.data_append]
    show ("oct" ++ (⟨(b64Encode (P.sha256 keyPair.1)).take 42⟩ : String)).data.length = 45
    rw [hdata, List.length_append, hlen]
    rfl
  · simp only [String.data_append, List.mem_append, not_or]
    exact ⟨by decide, hpad⟩
  · intro other later identity2 storage2 hsame hgen
    rw [generateOctID_eq, hsame] at hgen
    injection hgen with hgen
    injection hgen with h1 _
    rw [← h1]

/-- Witness of C7 on the key of RFC 8032 test 2. -/
theorem generateOctID_identifier_witness :
    ∃ identity storage hashBase64,
      generateOctID testPlatform (testPublicKey, testPrivateKey) "2024-01-01T00:00:00.000Z" =
        .ok (identity, storage) ∧
      arrayBufferToBase64 (testPlatform.sha256 testPublicKey) = .ok hashBase64 ∧
      hashBase64.data = b64Encode (testPlatform.sha256 testPublicKey) ∧
      identity.octID.data = ['o', 'c', 't'] ++ hashBase64.data.take 42 ∧
      identity.octID.length = 45 ∧
      '=' ∉ identity.octID.data ∧
      ∀ (other : Bytes × Bytes) (later : String) (identity2 : Identity) (storage2 : Storage),
        other.1 = testPublicKey →
        generateOctID testPlatform other later = .ok (identity2, storage2) →
        identity2.octID = identity.octID :=
  generateOctID_identifier testPlatform (testPublicKey, testPrivateKey)
    "2024-01-01T00:00:00.000Z" (by decide) (by decide)

theorem verifyMessageSignature_eq (P : Platform) (message signatureBase64 publicKeyBase64 : JVal)
    (signature publicKey messageBytes : Bytes)
    (hs : bufferFrom P signatureBase64 = .ok signature)
    (hk : bufferFrom P publicKeyBase64 = .ok publicKey)
    (hm : textEncode P message = .ok messageBytes) :
    verifyMessageSignature P message signatureBase64 publicKeyBase64 =
      .ok (decide (signature.length = 64) && decide (publicKey.length = 32) &&
        P.cryptoSignOpen messageBytes signature publicKey) := by
  simp only [verifyMessageSignature, base64ToUint8Array, hs, hk, hm, naclSignDetachedVerify,
    tryCatch, bind, Except.bind, pure, Except.pure]
  by_cases h1 : signature.length = 64 <;> by_cases h2 : publicKey.length = 32 <;> simp [h1, h2]

/-- C4. On every triple of values `verifyMessageSignature` completes with a boolean; the
boolean is `false` when decoding the signature or the public key throws, when encoding
the message throws, when tweetnacl throws, and in particular when the decoded signature
is not 64 bytes long or the decoded public key is not 32 bytes long. -/
theorem verifyMessageSignature_total (P : Platform)
    (message signatureBase64 publicKeyBase64 : JVal) :
    (∃ b, verifyMessageSignature P message signatureBase64 publicKeyBase64 = .ok b) ∧
    ((∃ e, bufferFrom P signatureBase64 = .error e) →
      verifyMessageSignature P message signatureBase64 publicKeyBase64 = .ok false) ∧
    ((∃ e, bufferFrom P publicKeyBase64 = .error e) →
      verifyMessageSignature P message signatureBase64 publicKeyBase64 = .ok false) ∧
    ((∃ e, textEncode P message = .error e) →
      verifyMessageSignature P message signatureBase64 publicKeyBase64 = .ok false) ∧
    (∀ signature publicKey messageBytes,
      bufferFrom P signatureBase64 = .ok signature →
      bufferFrom P publicKeyBase64 = .ok publicKey →
      textEncode P message = .ok messageBytes →
      ((∃ e, naclSignDetachedVerify P messageBytes signature publicKey = .error e) ∨
        signature.length ≠ 64 ∨ publicKey.length ≠ 32) →
      verifyMessageSignature P message signatureBase64 publicKeyBase64 = .ok false) := by
  cases hs : bufferFrom P signatureBase64 with
  | error e1 =>
    have hv : verifyMessageSignature P message signatureBase64 publicKeyBase64 = .ok false := by
      simp only [verifyMessageSignature, base64ToUint8Array, hs, tryCatch, bind, Except.bind]
    refine ⟨⟨false, hv⟩, fun _ => hv, fun _ => hv, fun _ => hv, ?_⟩
    intro _ _ _ h; cases h
  | ok signature =>
    cases hk : bufferFrom P publicKeyBase64 with
    | error e2 =>
      have hv : verifyMessageSignature P message signatureBase64 publicKeyBase64 = .ok false := by
        simp only [verifyMessageSignature, base64ToUint8Array, hs, hk, tryCatch, bind,
          Except.bind]
      refine ⟨⟨false, hv⟩, fun _ => hv, fun _ => hv, fun _ => hv, ?_⟩
      intro _ _ _ _ h; cases h
    | ok publicKey =>
      cases hm : textEncode P message with
      | error e3 =>
        have hv : verifyMessageSignature P message signatureBase64 publicKeyBase64 =
            .ok false := by
          simp only [verifyMessageSignature, base64ToUint8Array, hs, hk, hm, tryCatch, bind,
            Except.bind]
        refine ⟨⟨false, hv⟩, fun _ => hv, fun _ => hv, fun _ => hv, ?_⟩
        intro _ _ _ _ _ h; cases h
      | ok messageBytes =>
        have hv := verifyMessageSignature_eq P message signatureBase64 publicKeyBase64
          signature publicKey messageBytes hs hk hm
        refine ⟨⟨_, hv⟩, ?_, ?_, ?_, ?_⟩
        · rintro ⟨e, he⟩; cases he
        · rintro ⟨e, he⟩; cases he
        · rintro ⟨e, he⟩; cases he
        · intro s k m h1 h2 h3 hbad
          cases h1; cases h2; cases h3
          rw [hv]
          rcases hbad with ⟨e, he⟩ | hlen | hlen
          · simp only [naclSignDetachedVerify] at he
            by_cases h1 : signature.length = 64
            · by_cases h2 : publicKey.length = 32
              · simp [h1, h2] at he
              · simp [h2]
            · simp [h1]
          · simp [hlen]
          · simp [hlen]

/-- The client-side `verifySignature` also completes with a boolean on every input. -/
theorem verifySignature_total (P : Platform) (message : JVal)
    (signatureBase64 publicKeyBase64 : String) :
    ∃ b, verifySignature P message signatureBase64 publicKeyBase64 = .ok b := by
  simp only [verifySignature]
  cases base64ToArrayBuffer publicKeyBase64 with
  | error e => exact ⟨false, rfl⟩
  | ok publicKeyBuffer =>
    cases textEncode P message with
    | error e => exact ⟨false, rfl⟩
    | ok messageBuffer =>
      cases base64ToArrayBuffer signatureBase64 with
      | error e => exact ⟨false, rfl⟩
      | ok signatureBuffer =>
        cases h : P.subtleVerify publicKeyBuffer signatureBuffer messageBuffer with
        | error e => exact ⟨false, by simp [tryCatch, bind, Except.bind, h]⟩
        | ok b => exact ⟨b, by simp [tryCatch, bind, Except.bind, h]⟩

/-- Witness of C4: an absent signature and a two-byte signature both give `false`. -/
theorem verifyMessageSignature_total_witness :
    verifyMessageSignature testPlatform (.str "hello") .undefined (.str testPublicKeyBase64) =
      .ok false ∧
    verifyMessageSignature testPlatform (.str "hello") (.str "aGk=") (.str testPublicKeyBase64) =
      .ok false :=
  ⟨(verifyMessageSignature_total testPlatform (.str "hello") .undefined
      (.str testPublicKeyBase64)).2.1 ⟨.typeError, rfl⟩,
   (verifyMessageSignature_total testPlatform (.str "hello") (.str "aGk=")
      (.str testPublicKeyBase64)).2.2.2.2 (bufferFromBase64 "aGk=")
      (bufferFromBase64 testPublicKeyBase64) (utf8Encode "hello") rfl rfl rfl
      (Or.inr (Or.inl (by decide)))⟩

theorem signMessage_eq (P : Platform) (message : String) (privateKey signature : Bytes)
    (hsign : P.subtleSign privateKey (utf8Encode message) = .ok signature) :
    signMessage P (.str message) ⟨b64Encode privateKey⟩ = .ok ⟨b64Encode signature⟩ := by
  simp only [signMessage, base64ToArrayBuffer_b64Encode, textEncode, hsign,
    arrayBufferToBase64_eq, tryCatch, bind, Except.bind]

/-- C5. Let the platform sign the UTF-8 bytes of a message with the private key of a key
pair, and let tweetnacl accept that signature on those bytes under the public key of the
pair. Then `signMessage` on the stored private key returns a base64 signature, the relay
decodes it and the stored public key to the very bytes the client encoded, both sides
encode the message to the same bytes, and `verifyMessageSignature` returns `true`. -/
theorem sign_then_verify (P : Platform) (message : String) (keyPair : Bytes × Bytes)
    (now : String) (signature : Bytes)
    (hsign : P.subtleSign keyPair.2 (utf8Encode message) = .ok signature)
    (haccept : naclSignDetachedVerify P (utf8Encode message) signature keyPair.1 = .ok true) :
    ∃ identity storage signatureBase64,
      generateOctID P keyPair now = .ok (identity, storage) ∧
      signMessage P (.str message) identity.privateKey = .ok signatureBase64 ∧
      base64ToUint8Array P (.str signatureBase64) = .ok signature ∧
      base64ToUint8Array P (.str identity.publicKey) = .ok keyPair.1 ∧
      textEncode P (.str message) = .ok (utf8Encode message) ∧
      verifyMessageSignature P (.str message) (.str signatureBase64) (.str identity.publicKey) =
        .ok true := by
  have hs : bufferFrom P (.str ⟨b64Encode signature⟩) = .ok signature := by
    simp only [bufferFrom, bufferFromBase64_b64Encode]
  have hk : bufferFrom P (.str ⟨b64Encode keyPair.1⟩) = .ok keyPair.1 := by
    simp only [bufferFrom, bufferFromBase64_b64Encode]
  refine ⟨_, _, ⟨b64Encode signature⟩, generateOctID_eq P keyPair now,
    signMessage_eq P message keyPair.2 signature hsign, hs, hk, rfl, ?_⟩
  simp only [verifyMessageSignature, base64ToUint8Array, hs, hk, textEncode, haccept, tryCatch,
    bind, Except.bind, pure, Except.pure]

/-- Witness of C5: the message `hello` under the key pair of RFC 8032 test 2. -/
theorem sign_then_verify_witness :
    ∃ identity storage signatureBase64,
      generateOctID testPlatform (testPublicKey, testPrivateKey) "2024-01-01T00:00:00.000Z" =
        .ok (identity, storage) ∧
      signMessage testPlatform (.str "hello") identity.privateKey = .ok signatureBase64 ∧
      base64ToUint8Array testPlatform (.str signatureBase64) = .ok testSignatureHello ∧
      base64ToUint8Array testPlatform (.str identity.publicKey) = .ok testPublicKey ∧
      textEncode testPlatform (.str "hello") = .ok (utf8Encode "hello") ∧
      verifyMessageSignature testPlatform (.str "hello") (.str signatureBase64)
        (.str identity.publicKey) = .ok true :=
  sign_then_verify testPlatform "hello" (testPublicKey, testPrivateKey)
    "2024-01-01T00:00:00.000Z" testSignatureHello (by decide) (by decide)

/-! ## The `sendMessage` handler -/

theorem verifyMessageSignature_cases (P : Platform)
    (message signatureBase64 publicKeyBase64 : JVal) :
    verifyMessageSignature P message signatureBase64 publicKeyBase64 = .ok true ∨
    verifyMessageSignature P message signatureBase64 publicKeyBase64 = .ok false := by
  simp only [verifyMessageSignature, base64ToUint8Array, naclSignDetachedVerify]
  cases bufferFrom P signatureBase64 with
  | error e => simp [tryCatch, bind, Except.bind]
  | ok signature =>
    cases bufferFrom P publicKeyBase64 with
    | error e => simp [tryCatch, bind, Except.bind]
    | ok publicKey =>
      cases textEncode P message with
      | error e => simp [tryCatch, bind, Except.bind]
      | ok messageBytes =>
        by_cases h1 : signature.length = 64 <;> by_cases h2 : publicKey.length = 32 <;>
          cases h3 : P.cryptoSignOpen messageBytes signature publicKey <;>
          simp [tryCatch, bind, Except.bind, pure, Except.pure, h1, h2, h3]

theorem sendMessageBody_of_fields (P : Platform) (st : RelayState) (socket : SocketId)
    (message : JVal) (id : String) (content : String) (signature publicKey : JVal)
    (hc : getProp message "content" = .ok (.str content))
    (hs : getProp message "signature" = .ok signature)
    (hk : getProp message "publicKey" = .ok publicKey) (b : Bool)
    (hv : verifyMessageSignature P (.str content) signature publicKey = .ok b) :
    sendMessageBody P st socket message id =
      .ok (if b then
          ({ st with messages := pushBounded st.messages (storedMessageOf message id) },
            [.ioEmit "message" (storedMessageOf message id)])
        else
          (st, [.socketEmit socket "error" (errorPayload "Invalid signature - message rejected")])) := by
  have hf : ∃ v, getProp message "from" = .ok v := by
    cases message <;> simp [getProp] at hc ⊢
  obtain ⟨v, hf⟩ := hf
  cases b <;>
    simp [sendMessageBody, hf, hc, hs, hk, hv, substring, pushBounded, bind, Except.bind, pure,
      Except.pure]

theorem sendMessage_accept (P : Platform) (st : RelayState) (socket : SocketId)
    (message : JVal) (id : String) (h : passesVerification P message = true) :
    sendMessage P st socket message id =
      ({ st with messages := pushBounded st.messages (storedMessageOf message id) },
        [.ioEmit "message" (storedMessageOf message id)]) := by
  unfold passesVerification at h
  split at h
  · rename_i content signature publicKey hc hs hk
    split at h
    · rename_i hv
      simp only [sendMessage,
        sendMessageBody_of_fields P st socket message id content signature publicKey hc hs hk
          true hv, if_true]
    · cases h
  · cases h

theorem sendMessage_reject (P : Platform) (st : RelayState) (socket : SocketId)
    (message : JVal) (id : String) (h : passesVerification P message = false) :
    ∃ reason, isRejection reason ∧
      sendMessage P st socket message id = (st, [.socketEmit socket "error" reason]) := by
  cases hc : getProp message "content" with
  | error e =>
    refine ⟨_, Or.inr rfl, ?_⟩
    have : sendMessageBody P st socket message id = .error e := by
      cases message <;> simp [getProp] at hc
      all_goals subst hc; simp [sendMessageBody, getProp, bind, Except.bind]
    simp only [sendMessage, this]
  | ok content =>
    have hobj : ∀ key, ∃ v, getProp message key = .ok v := by
      intro key
      cases message <;> simp [getProp] at hc ⊢
    obtain ⟨from_, hf⟩ := hobj "from"
    obtain ⟨signature, hs⟩ := hobj "signature"
    obtain ⟨publicKey, hk⟩ := hobj "publicKey"
    by_cases hstr : ∃ text, content = .str text
    · obtain ⟨text, rfl⟩ := hstr
      rcases verifyMessageSignature_cases P (.str text) signature publicKey with hv | hv
      · simp [passesVerification, hc, hs, hk, hv] at h
      · refine ⟨_, Or.inl rfl, ?_⟩
        simp only [sendMessage,
          sendMessageBody_of_fields P st socket message id text signature publicKey hc hs hk
            false hv]
        rfl
    · refine ⟨_, Or.inr rfl, ?_⟩
      have : sendMessageBody P st socket message id = .error .typeError := by
        cases content with
        | str text => exact absurd ⟨text, rfl⟩ hstr
        | _ => simp [sendMessageBody, hf, hc, substring, bind, Except.bind]
      simp only [sendMessage, this]

theorem passesVerification_false_of (P : Platform) (message content signature publicKey : JVal)
    (hc : getProp message "content" = .ok content)
    (hs : getProp message "signature" = .ok signature)
    (hk : getProp message "publicKey" = .ok publicKey)
    (hv : verifyMessageSignature P content signature publicKey = .ok false) :
    passesVerification P message = false := by
  cases content <;> simp [passesVerification, hc, hs, hk, hv]

/-- C1. When `verifyMessageSignature` returns `false` on the `content`, `signature` and
`publicKey` of a payload, the `sendMessage` handler returns the state it was given (log
and registry unchanged) and emits one event only: an `error` to the sending session, so
no session receives a `message` event. -/
theorem sendMessage_rejects_unverified (P : Platform) (st : RelayState) (socket : SocketId)
    (message : JVal) (id : String) (content signature publicKey : JVal)
    (hc : getProp message "content" = .ok content)
    (hs : getProp message "signature" = .ok signature)
    (hk : getProp message "publicKey" = .ok publicKey)
    (hv : verifyMessageSignature P content signature publicKey = .ok false) :
    ∃ reason, isRejection reason ∧
      sendMessage P st socket message id = (st, [.socketEmit socket "error" reason]) ∧
      broadcastMessages (sendMessage P st socket message id).2 = [] ∧
      ∀ connected, deliver connected (sendMessage P st socket message id).2 =
        [(socket, "error", reason)] := by
  obtain ⟨reason, hr, heq⟩ := sendMessage_reject P st socket message id
    (passesVerification_false_of P message content signature publicKey hc hs hk hv)
  refine ⟨reason, hr, heq, ?_, ?_⟩
  · rw [heq]; rfl
  · intro connected; rw [heq]; rfl

/-- Witness of C1: the signed `hello` with its content changed to `hellO`. -/
theorem sendMessage_rejects_unverified_witness :
    ∃ reason, isRejection reason ∧
      sendMessage testPlatform RelayState.initial "socketA"
          (.obj [("from", .str "octA"), ("publicKey", .str testPublicKeyBase64),
            ("content", .str "hellO"), ("signature", .str testSignatureHelloBase64)]) "id1" =
        (RelayState.initial, [.socketEmit "socketA" "error" reason]) ∧
      broadcastMessages (sendMessage testPlatform RelayState.initial "socketA"
          (.obj [("from", .str "octA"), ("publicKey", .str testPublicKeyBase64),
            ("content", .str "hellO"), ("signature", .str testSignatureHelloBase64)]) "id1").2 =
        [] ∧
      ∀ connected, deliver connected (sendMessage testPlatform RelayState.initial "socketA"
          (.obj [("from", .str "octA"), ("publicKey", .str testPublicKeyBase64),
            ("content", .str "hellO"), ("signature", .str testSignatureHelloBase64)]) "id1").2 =
        [("socketA", "error", reason)] :=
  sendMessage_rejects_unverified testPlatform RelayState.initial "socketA"
    (.obj [("from", .str "octA"), ("publicKey", .str testPublicKeyBase64),
      ("content", .str "hellO"), ("signature", .str testSignatureHelloBase64)]) "id1"
    (.str "hellO") (.str testSignatureHelloBase64) (.str testPublicKeyBase64)
    rfl rfl rfl (by decide)

theorem verify_signature_undefined (P : Platform) (message publicKeyBase64 : JVal) :
    verifyMessageSignature P message .undefined publicKeyBase64 = .ok false := by
  simp [verifyMessageSignature, base64ToUint8Array, bufferFrom, tryCatch, bind, Except.bind]

theorem verify_publicKey_undefined (P : Platform) (message signatureBase64 : JVal) :
    verifyMessageSignature P message signatureBase64 .undefined = .ok false := by
  simp only [verifyMessageSignature, base64ToUint8Array]
  cases bufferFrom P signatureBase64 <;> simp [bufferFrom, tryCatch, bind, Except.bind]

theorem passesVerification_false_of_absent (P : Platform) (message : JVal)
    (h : getProp message "content" = .ok .undefined ∨
      getProp message "signature" = .ok .undefined ∨
      getProp message "publicKey" = .ok .undefined ∨
      message = .null ∨ message = .undefined) :
    passesVerification P message = false := by
  rcases h with h | h | h | h | h
  · simp [passesVerification, h]
  · cases hc : getProp message "content" with
    | error e => simp [passesVerification, hc]
    | ok content =>
      cases hk : getProp message "publicKey" with
      | error e => cases content <;> simp [passesVerification, hc, hk]
      | ok publicKey =>
        cases content <;>
          simp [passesVerification, hc, h, hk, verify_signature_undefined]
  · cases hc : getProp message "content" with
    | error e => simp [passesVerification, hc]
    | ok content =>
      cases hs : getProp message "signature" with
      | error e => cases content <;> simp [passesVerification, hc, hs]
      | ok signature =>
        cases content <;>
          simp [passesVerification, hc, h, hs, verify_publicKey_undefined]
  · subst h; simp [passesVerification, getProp]
  · subst h; simp [passesVerification, getProp]

/-- C6, counterexample. A payload with a valid signature and no `from` is not rejected:
the handler stores it and broadcasts it. -/
theorem sendMessage_accepts_missing_from :
    getProp anonymousMessage "from" = .ok .undefined ∧
    sendMessage testPlatform RelayState.initial "socketA" anonymousMessage "id1" =
      ({ messages := [storedMessageOf anonymousMessage "id1"], connectedUsers := [] },
        [.ioEmit "message" (storedMessageOf anonymousMessage "id1")]) ∧
    ¬ ∃ reason, sendMessage testPlatform RelayState.initial "socketA" anonymousMessage "id1" =
      (RelayState.initial, [.socketEmit "socketA" "error" reason]) := by
  have hpass : passesVerification testPlatform anonymousMessage = true := by decide
  have heq := sendMessage_accept testPlatform RelayState.initial "socketA" anonymousMessage "id1"
    hpass
  refine ⟨rfl, ?_, ?_⟩
  · rw [heq]; rfl
  · rintro ⟨reason, hr⟩
    rw [heq] at hr
    injection hr with _ h2
    injection h2 with h3 _
    cases h3

/-- C6, amended. When `content`, `signature` or `publicKey` is absent from the payload, or
the payload itself is `null` or absent, the handler returns the state it was given and
emits one event only, an `error` to the sending session. The sender identifier is not
examined. -/
theorem sendMessage_rejects_incomplete (P : Platform) (st : RelayState) (socket : SocketId)
    (message : JVal) (id : String)
    (h : getProp message "content" = .ok .undefined ∨
      getProp message "signature" = .ok .undefined ∨
      getProp message "publicKey" = .ok .undefined ∨
      message = .null ∨ message = .undefined) :
    ∃ reason, isRejection reason ∧
      sendMessage P st socket message id = (st, [.socketEmit socket "error" reason]) ∧
      broadcastMessages (sendMessage P st socket message id).2 = [] ∧
      ∀ connected, deliver connected (sendMessage P st socket message id).2 =
        [(socket, "error", reason)] := by
  obtain ⟨reason, hr, heq⟩ := sendMessage_reject P st socket message id
    (passesVerification_false_of_absent P message h)
  refine ⟨reason, hr, heq, ?_, ?_⟩
  · rw [heq]; rfl
  · intro connected; rw [heq]; rfl

/-- Witness of C6 as amended: the signed `hello` without its `signature`. -/
theorem sendMessage_rejects_incomplete_witness :
    ∃ reason, isRejection reason ∧
      sendMessage testPlatform RelayState.initial "socketA"
          (.obj [("from", .str "octA"), ("publicKey", .str testPublicKeyBase64),
            ("content", .str "hello")]) "id1" =
        (RelayState.initial, [.socketEmit "socketA" "error" reason]) ∧
      broadcastMessages (sendMessage testPlatform RelayState.initial "socketA"
          (.obj [("from", .str "octA"), ("publicKey", .str testPublicKeyBase64),
            ("content", .str "hello")]) "id1").2 = [] ∧
      ∀ connected, deliver connected (sendMessage testPlatform RelayState.initial "socketA"
          (.obj [("from", .str "octA"), ("publicKey", .str testPublicKeyBase64),
            ("content", .str "hello")]) "id1").2 = [("socketA", "error", reason)] :=
  sendMessage_rejects_incomplete testPlatform RelayState.initial "socketA"
    (.obj [("from", .str "octA"), ("publicKey", .str testPublicKeyBase64),
      ("content", .str "hello")]) "id1" (Or.inr (Or.inl rfl))

theorem lookup_setProp (fields : List (String × JVal)) (key : String) (value : JVal)
    (other : String) :
    (setProp fields key value).lookup other =
      if other = key then some value else fields.lookup other := by
  induction fields with
  | nil =>
    by_cases h : other = key
    · subst h; simp [setProp, List.lookup]
    · have hb : (other == key) = false := beq_false_of_ne h
      simp [setProp, List.lookup, h, hb]
  | cons entry rest ih =>
    obtain ⟨k, v⟩ := entry
    by_cases hk : k = key
    · subst hk
      by_cases h : other = k
      · subst h; simp [setProp, List.lookup]
      · have hb : (other == k) = false := beq_false_of_ne h
        simp [setProp, List.lookup, h, hb]
    · by_cases h : other = key
      · subst h
        have hb : (other == k) = false := beq_false_of_ne (fun h2 => hk h2.symm)
        simp [setProp, hk, List.lookup, hb, ih]
      · by_cases h2 : other = k
        · subst h2; simp [setProp, hk, List.lookup]
        · have hb : (other == k) = false := beq_false_of_ne h2
          simp [setProp, hk, List.lookup, h, hb, ih]

theorem getProp_storedMessageOf (fields : List (String × JVal)) (id : String) (key : String) :
    getProp (storedMessageOf (.obj fields) id) key =
      if key = "verified" then .ok (.bool true)
      else if key = "id" then .ok (.str id)
      else getProp (.obj fields) key := by
  simp only [storedMessageOf, ownProps, getProp, lookup_setProp]
  by_cases h1 : key = "verified"
  · simp [h1]
  · by_cases h2 : key = "id" <;> simp [h1, h2]

theorem getLast?_pushBounded (messages : List JVal) (storedMessage : JVal) :
    (pushBounded messages storedMessage).getLast? = some storedMessage := by
  simp only [pushBounded]
  split
  · rename_i h
    rw [List.getLast?_drop, if_neg (by omega), List.getLast?_concat]
  · exact List.getLast?_concat messages

/-- C3, counterexample. The payload `numericMessage` carries the number 5 as `content` and
the signature of the text `5`: `verifyMessageSignature` returns `true` on its three
fields, yet the handler throws at `content.substring`, stores nothing and reports an
`error` to the sender. -/
theorem sendMessage_rejects_verified_number :
    getProp numericMessage "content" = .ok (.num 5) ∧
    getProp numericMessage "signature" = .ok (.str testSignature5Base64) ∧
    getProp numericMessage "publicKey" = .ok (.str testPublicKeyBase64) ∧
    verifyMessageSignature testPlatform (.num 5) (.str testSignature5Base64)
      (.str testPublicKeyBase64) = .ok true ∧
    sendMessage testPlatform RelayState.initial "socketA" numericMessage "id1" =
      (RelayState.initial,
        [.socketEmit "socketA" "error" (errorPayload "Failed to process message")]) :=
  ⟨rfl, rfl, rfl, by decide, rfl⟩

/-- C3, amended. When the `content` of a payload is a string and `verifyMessageSignature`
returns `true` on its `content`, `signature` and `publicKey`, the handler stores
`{...message, id, verified: true}`: every field other than `id` and `verified` is the
one of the payload, `verified` is `true` and `id` is the fresh identifier. The stored
message is the last element of the new log, the only event emitted is one `message`
broadcast of it, delivered to every connected session, and the registry is unchanged. -/
theorem sendMessage_stores_verified (P : Platform) (st : RelayState) (socket : SocketId)
    (message : JVal) (id : String) (content : String) (signature publicKey : JVal)
    (hc : getProp message "content" = .ok (.str content))
    (hs : getProp message "signature" = .ok signature)
    (hk : getProp message "publicKey" = .ok publicKey)
    (hv : verifyMessageSignature P (.str content) signature publicKey = .ok true) :
    (∀ key, key ≠ "id" → key ≠ "verified" →
      getProp (storedMessageOf message id) key = getProp message key) ∧
    getProp (storedMessageOf message id) "verified" = .ok (.bool true) ∧
    getProp (storedMessageOf message id) "id" = .ok (.str id) ∧
    (sendMessage P st socket message id).1.messages =
      pushBounded st.messages (storedMessageOf message id) ∧
    (sendMessage P st socket message id).1.messages.getLast? =
      some (storedMessageOf message id) ∧
    (sendMessage P st socket message id).2 = [.ioEmit "message" (storedMessageOf message id)] ∧
    (∀ connected, deliver connected (sendMessage P st socket message id).2 =
      connected.map (fun session => (session, "message", storedMessageOf message id))) ∧
    (∀ e ∈ (sendMessage P st socket message id).2, e.event ≠ "error") ∧
    (sendMessage P st socket message id).1.connectedUsers = st.connectedUsers := by
  have hpass : passesVerification P message = true := by
    simp [passesVerification, hc, hs, hk, hv]
  have heq := sendMessage_accept P st socket message id hpass
  obtain ⟨fields, rfl⟩ : ∃ fields, message = .obj fields := by
    cases message <;> simp [getProp] at hc ⊢
  refine ⟨?_, ?_, ?_, ?_, ?_, ?_, ?_, ?_, ?_⟩
  · intro key h1 h2
    rw [getProp_storedMessageOf, if_neg h2, if_neg h1]
  · rw [getProp_storedMessageOf, if_pos rfl]
  · rw [getProp_storedMessageOf, if_neg (by decide), if_pos rfl]
  · rw [heq]
  · rw [heq]; exact getLast?_pushBounded _ _
  · rw [heq]
  · intro connected
    rw [heq]
    simp [deliver, Emit.deliveries]
  · intro e he
    rw [heq] at he
    simp only [List.mem_singleton] at he
    subst he
    simp [Emit.event]
  · rw [heq]

/-- Witness of C3 as amended: the signed `hello` of a well-formed client. -/
theorem sendMessage_stores_verified_witness :
    (sendMessage testPlatform RelayState.initial "socketA" helloMessage "id1").1.messages.getLast? =
      some (storedMessageOf helloMessage "id1") ∧
    (sendMessage testPlatform RelayState.initial "socketA" helloMessage "id1").2 =
      [.ioEmit "message" (storedMessageOf helloMessage "id1")] :=
  have h := sendMessage_stores_verified testPlatform RelayState.initial "socketA" helloMessage
    "id1" "hello" (.str testSignatureHelloBase64) (.str testPublicKeyBase64) rfl rfl rfl
    (by decide)
  ⟨h.2.2.2.2.1, h.2.2.2.2.2.1⟩

/-! ## The bounded log -/

theorem lastN_of_length_le {α : Type} (n : Nat) (l : List α) (h : l.length ≤ n) :
    lastN n l = l := by
  simp [lastN, Nat.sub_eq_zero_of_le h]

theorem length_lastN {α : Type} (n : Nat) (l : List α) : (lastN n l).length = min l.length n := by
  simp only [lastN, List.length_drop]
  omega

theorem lastN_append_lastN {α : Type} (n : Nat) (a b : List α) :
    lastN n (lastN n a ++ b) = lastN n (a ++ b) := by
  simp only [lastN, List.length_append, List.length_drop]
  have hsplit : a.length + b.length - n =
      (a.length - n) + ((a.length - (a.length - n)) + b.length - n) := by omega
  rw [hsplit, ← List.drop_drop, List.drop_append_of_le_length (Nat.sub_le _ _)]

theorem pushBounded_eq_lastN (messages : List JVal) (storedMessage : JVal)
    (h : messages.length ≤ 100) :
    pushBounded messages storedMessage = lastN 100 (messages ++ [storedMessage]) := by
  simp only [pushBounded, lastN, List.length_append, List.length_singleton]
  split
  · have : messages.length + 1 - 100 = 1 := by omega
    rw [this]
  · have : messages.length + 1 - 100 = 0 := by omega
    rw [this, List.drop_zero]

theorem run_log (P : Platform) (events : List Event) :
    ∀ st : RelayState, st.messages.length ≤ 100 →
      (run P st events).1.messages = lastN 100 (st.messages ++ acceptedSends P events) ∧
      broadcastMessages (run P st events).2 = acceptedSends P events := by
  induction events with
  | nil =>
    intro st h
    simp [run, acceptedSends, broadcastMessages, lastN_of_length_le 100 st.messages h]
  | cons ev rest ih =>
    intro st h
    cases ev with
    | register socket octID =>
      have := ih (register st socket octID).1 h
      simpa [run, step, acceptedSends, broadcastMessages, register] using this
    | disconnect socket =>
      have := ih (disconnect st socket).1 h
      simpa [run, step, acceptedSends, broadcastMessages, disconnect] using this
    | sendMessage socket message id =>
      cases hp : passesVerification P message with
      | true =>
        have heq := sendMessage_accept P st socket message id hp
        have hlen : (pushBounded st.messages (storedMessageOf message id)).length ≤ 100 := by
          rw [pushBounded_eq_lastN _ _ h, length_lastN]
          exact Nat.min_le_right _ _
        have := ih { st with messages := pushBounded st.messages (storedMessageOf message id) } hlen
        simp only [run, step, heq, acceptedSends, hp, if_true, List.singleton_append,
          broadcastMessages]
        refine ⟨?_, by rw [this.2]⟩
        rw [this.1]
        show lastN 100 (pushBounded st.messages (storedMessageOf message id) ++ _) = _
        rw [pushBounded_eq_lastN _ _ h, lastN_append_lastN, List.append_assoc]
        rfl
      | false =>
        obtain ⟨reason, _, heq⟩ := sendMessage_reject P st socket message id hp
        have := ih st h
        simp only [run, step, heq, acceptedSends, hp, List.singleton_append, broadcastMessages]
        exact ⟨this.1, this.2⟩

/-- C2. After any sequence of `register`, `sendMessage` and `disconnect` events from the
start-up state, the log is the last `min k 100` stored messages of the `k` accepted
sends, in acceptance order, and these accepted sends are exactly the `message`
broadcasts. The log never holds more than 100 messages, and once 101 messages have been
accepted the log is the 2nd to the 101st of them, the 1st being dropped. -/
theorem log_is_last_hundred (P : Platform) (events : List Event) :
    (run P RelayState.initial events).1.messages = lastN 100 (acceptedSends P events) ∧
    broadcastMessages (run P RelayState.initial events).2 = acceptedSends P events ∧
    (run P RelayState.initial events).1.messages.length =
      min (acceptedSends P events).length 100 ∧
    (run P RelayState.initial events).1.messages.length ≤ 100 ∧
    (∀ i, i < min (acceptedSends P events).length 100 →
      (run P RelayState.initial events).1.messages[i]? =
        (acceptedSends P events)[(acceptedSends P events).length -
          min (acceptedSends P events).length 100 + i]?) ∧
    (∀ first others, acceptedSends P events = first :: others → others.length = 100 →
      (run P RelayState.initial events).1.messages = others) := by
  have h := run_log P events RelayState.initial (by simp [RelayState.initial])
  have hlog : (run P RelayState.initial events).1.messages = lastN 100 (acceptedSends P events) := by
    rw [h.1]; simp [RelayState.initial]
  refine ⟨hlog, h.2, ?_, ?_, ?_, ?_⟩
  · rw [hlog, length_lastN]
  · rw [hlog, length_lastN]; exact Nat.min_le_right _ _
  · intro i _
    rw [hlog]
    simp only [lastN, List.getElem?_drop]
    congr 1
    omega
  · intro first others hacc hlen
    rw [hlog, hacc]
    simp [lastN, hlen]

theorem acceptedSends_map_hello (ids : List String) :
    acceptedSends testPlatform (ids.map (fun id => Event.sendMessage "socketA" helloMessage id)) =
      ids.map (fun id => storedMessageOf helloMessage id) := by
  have hpass : passesVerification testPlatform helloMessage = true := by decide
  induction ids with
  | nil => rfl
  | cons id rest ih => simp [acceptedSends, hpass, ih]

/-- Witness of C2: after 101 accepted sends the log is the 2nd to the 101st of them. -/
theorem log_is_last_hundred_witness :
    (run testPlatform RelayState.initial hundredOneSends).1.messages =
      (List.range' 1 100).map (fun i => storedMessageOf helloMessage ⟨List.replicate i 'x'⟩) :=
  (log_is_last_hundred testPlatform hundredOneSends).2.2.2.2.2
    (storedMessageOf helloMessage ⟨List.replicate 0 'x'⟩)
    ((List.range' 1 100).map (fun i => storedMessageOf helloMessage ⟨List.replicate i 'x'⟩))
    (by
      have h := acceptedSends_map_hello ((List.range 101).map (fun i => ⟨List.replicate i 'x'⟩))
      simp only [List.map_map] at h
      rw [show hundredOneSends = (List.range 101).map
        ((fun id => Event.sendMessage "socketA" helloMessage id) ∘
          (fun i => (⟨List.replicate i 'x'⟩ : String))) from rfl, h]
      rfl)
    (by simp)

/-! ## The connection registry -/

theorem mapGet_mapSet_self (m : Registry) (key : String) (value : SocketId) :
    mapGet (mapSet m key value) key = some value := by
  induction m with
  | nil => simp [mapSet, mapGet]
  | cons entry rest ih =>
    obtain ⟨k, v⟩ := entry
    by_cases h : k = key <;> simp [mapSet, mapGet, h, ih]

theorem mapGet_mapSet_other (m : Registry) (key : String) (value : SocketId) (other : String)
    (hne : other ≠ key) : mapGet (mapSet m key value) other = mapGet m other := by
  induction m with
  | nil => simp [mapSet, mapGet, Ne.symm hne]
  | cons entry rest ih =>
    obtain ⟨k, v⟩ := entry
    by_cases h : k = key
    · subst h; simp [mapSet, mapGet, Ne.symm hne]
    · by_cases h2 : k = other
      · subst h2; simp [mapSet, mapGet, h]
      · simp [mapSet, mapGet, h, h2, ih]

theorem mem_mapSet_other (m : Registry) (key : String) (value : SocketId)
    (entry : String × SocketId) (hne : entry.1 ≠ key) :
    entry ∈ mapSet m key value ↔ entry ∈ m := by
  induction m with
  | nil =>
    simp only [mapSet, List.mem_singleton, List.not_mem_nil, iff_false]
    intro h; exact hne (by rw [h])
  | cons first rest ih =>
    obtain ⟨k, v⟩ := first
    by_cases h : k = key
    · subst h
      simp only [mapSet, if_true, List.mem_cons]
      constructor
      · rintro (h1 | h1)
        · exact absurd (by rw [h1]) hne
        · exact Or.inr h1
      · rintro (h1 | h1)
        · exact absurd (by rw [h1]) hne
        · exact Or.inr h1
    · simp only [mapSet, if_neg h, List.mem_cons, ih]

theorem keys_mapSet (m : Registry) (key : String) (value : SocketId) :
    (mapSet m key value).map Prod.fst =
      if key ∈ m.map Prod.fst then m.map Prod.fst else m.map Prod.fst ++ [key] := by
  induction m with
  | nil => simp [mapSet]
  | cons first rest ih =>
    obtain ⟨k, v⟩ := first
    by_cases h : k = key
    · subst h; simp [mapSet]
    · have hne : ¬ key = k := fun h2 => h h2.symm
      simp only [mapSet, if_neg h, List.map_cons, ih, List.mem_cons, hne, false_or]
      split <;> simp

theorem wellFormed_mapSet (m : Registry) (key : String) (value : SocketId)
    (hwf : Registry.WellFormed m) : Registry.WellFormed (mapSet m key value) := by
  unfold Registry.WellFormed at hwf ⊢
  rw [keys_mapSet]
  split
  · exact hwf
  · rename_i hnot
    rw [List.nodup_append]
    refine ⟨hwf, List.nodup_singleton key, ?_⟩
    intro a ha hb
    rw [List.mem_singleton] at hb
    subst hb
    exact hnot ha

theorem value_of_mem_mapSet (m : Registry) (key : String) (value : SocketId)
    (hwf : Registry.WellFormed m) (entry : String × SocketId)
    (hmem : entry ∈ mapSet m key value) (hkey : entry.1 = key) : entry.2 = value := by
  induction m with
  | nil =>
    simp only [mapSet, List.mem_singleton] at hmem
    rw [hmem]
  | cons first rest ih =>
    obtain ⟨k, v⟩ := first
    unfold Registry.WellFormed at hwf
    simp only [List.map_cons, List.nodup_cons] at hwf
    by_cases h : k = key
    · subst h
      simp only [mapSet, if_true, List.mem_cons] at hmem
      rcases hmem with h1 | h1
      · rw [h1]
      · exfalso
        apply hwf.1
        rw [← hkey]
        exact List.mem_map_of_mem Prod.fst h1
    · simp only [mapSet, if_neg h, List.mem_cons] at hmem
      rcases hmem with h1 | h1
      · exfalso; apply h; rw [← hkey, h1]
      · exact ih hwf.2 h1

/-- C8. In a state whose registry has pairwise distinct keys, `register(octID)` from a
session makes the registry map the identifier to that session and to no other, keeps the
keys distinct, leaves every entry of another identifier and the log unchanged, and emits
one event only: `messageHistory` with the whole current log, to that session. -/
theorem register_spec (st : RelayState) (socket : SocketId) (octID : String)
    (hwf : Registry.WellFormed st.connectedUsers) :
    mapGet (register st socket octID).1.connectedUsers octID = some socket ∧
    (∀ entry ∈ (register st socket octID).1.connectedUsers, entry.1 = octID →
      entry.2 = socket) ∧
    Registry.WellFormed (register st socket octID).1.connectedUsers ∧
    (∀ other, other ≠ octID →
      mapGet (register st socket octID).1.connectedUsers other =
        mapGet st.connectedUsers other) ∧
    (∀ entry : String × SocketId, entry.1 ≠ octID →
      (entry ∈ (register st socket octID).1.connectedUsers ↔ entry ∈ st.connectedUsers)) ∧
    (register st socket octID).1.messages = st.messages ∧
    (register st socket octID).2 = [.socketEmit socket "messageHistory" (.arr st.messages)] ∧
    ∀ connected, deliver connected (register st socket octID).2 =
      [(socket, "messageHistory", .arr st.messages)] :=
  ⟨mapGet_mapSet_self _ _ _,
   fun entry hmem hkey => value_of_mem_mapSet _ _ _ hwf entry hmem hkey,
   wellFormed_mapSet _ _ _ hwf,
   fun other hne => mapGet_mapSet_other _ _ _ other hne,
   fun entry hne => mem_mapSet_other _ _ _ entry hne,
   rfl, rfl, fun _ => rfl⟩

/-- Witness of C8: a second session registers an identifier that a first one holds. -/
theorem register_spec_witness :
    (register { messages := [helloMessage], connectedUsers := [("octA", "socketA")] }
      "socketB" "octA").1.connectedUsers = [("octA", "socketB")] ∧
    (register { messages := [helloMessage], connectedUsers := [("octA", "socketA")] }
      "socketB" "octA").2 = [.socketEmit "socketB" "messageHistory" (.arr [helloMessage])] :=
  have h := register_spec { messages := [helloMessage], connectedUsers := [("octA", "socketA")] }
    "socketB" "octA" (by decide)
  ⟨by decide, h.2.2.2.2.2.2.1⟩

theorem sendMessage_connectedUsers (P : Platform) (st : RelayState) (socket : SocketId)
    (message : JVal) (id : String) :
    (sendMessage P st socket message id).1.connectedUsers = st.connectedUsers := by
  cases hp : passesVerification P message with
  | true => rw [sendMessage_accept P st socket message id hp]
  | false =>
    obtain ⟨reason, _, heq⟩ := sendMessage_reject P st socket message id hp
    rw [heq]

theorem keys_mapDelete_sublist (m : Registry) (key : String) :
    ((mapDelete m key).map Prod.fst).Sublist (m.map Prod.fst) := by
  induction m with
  | nil => simp [mapDelete]
  | cons first rest ih =>
    obtain ⟨k, v⟩ := first
    by_cases h : k = key
    · simp [mapDelete, h]
    · simp only [mapDelete, if_neg h, List.map_cons]
      exact ih.cons₂ k

theorem mem_mapDelete (m : Registry) (key : String) (hwf : Registry.WellFormed m)
    (entry : String × SocketId) :
    entry ∈ mapDelete m key ↔ entry ∈ m ∧ entry.1 ≠ key := by
  induction m with
  | nil => simp [mapDelete]
  | cons first rest ih =>
    obtain ⟨k, v⟩ := first
    unfold Registry.WellFormed at hwf
    simp only [List.map_cons, List.nodup_cons] at hwf
    by_cases h : k = key
    · subst h
      simp only [mapDelete, if_true, List.mem_cons]
      constructor
      · intro hmem
        refine ⟨Or.inr hmem, ?_⟩
        intro hk
        apply hwf.1
        rw [← hk]
        exact List.mem_map_of_mem Prod.fst hmem
      · rintro ⟨h1 | h1, h2⟩
        · exact absurd (by rw [h1]) h2
        · exact h1
    · simp only [mapDelete, if_neg h, List.mem_cons, ih hwf.2]
      constructor
      · rintro (h1 | ⟨h1, h2⟩)
        · exact ⟨Or.inl h1, by rw [h1]; exact h⟩
        · exact ⟨Or.inr h1, h2⟩
      · rintro ⟨h1 | h1, h2⟩
        · exact Or.inl h1
        · exact Or.inr ⟨h1, h2⟩

theorem disconnectLoop_cases (entries : Registry) (socket : SocketId) (m : Registry) :
    (disconnectLoop entries socket m = m ∧ ∀ entry ∈ entries, entry.2 ≠ socket) ∨
    ∃ octID, (octID, socket) ∈ entries ∧ disconnectLoop entries socket m = mapDelete m octID := by
  induction entries with
  | nil => exact Or.inl ⟨rfl, by simp⟩
  | cons first rest ih =>
    obtain ⟨k, v⟩ := first
    by_cases h : v = socket
    · subst h
      exact Or.inr ⟨k, List.mem_cons_self _ _, by simp [disconnectLoop]⟩
    · rcases ih with ⟨h1, h2⟩ | ⟨octID, h1, h2⟩
      · refine Or.inl ⟨by simp [disconnectLoop, h, h1], ?_⟩
        intro entry hmem
        rcases List.mem_cons.mp hmem with h3 | h3
        · rw [h3]; exact h
        · exact h2 entry h3
      · exact Or.inr ⟨octID, List.mem_cons_of_mem _ h1, by simp [disconnectLoop, h, h2]⟩

theorem wellFormed_step (P : Platform) (st : RelayState) (ev : Event)
    (hwf : Registry.WellFormed st.connectedUsers) :
    Registry.WellFormed (step P st ev).1.connectedUsers := by
  cases ev with
  | register socket octID => exact wellFormed_mapSet _ _ _ hwf
  | sendMessage socket message id =>
    simp only [step, sendMessage_connectedUsers]
    exact hwf
  | disconnect socket =>
    simp only [step, disconnect]
    rcases disconnectLoop_cases st.connectedUsers socket st.connectedUsers with
      ⟨h1, _⟩ | ⟨octID, _, h2⟩
    · rw [h1]; exact hwf
    · rw [h2]
      exact List.Nodup.sublist (keys_mapDelete_sublist _ _) hwf

/-- Every reachable state has a registry with pairwise distinct keys. -/
theorem wellFormed_of_reachable (P : Platform) (st : RelayState) (h : Reachable P st) :
    Registry.WellFormed st.connectedUsers := by
  obtain ⟨events, rfl⟩ := h
  have key : ∀ (events : List Event) (st : RelayState),
      Registry.WellFormed st.connectedUsers →
      Registry.WellFormed (run P st events).1.connectedUsers := by
    intro events
    induction events with
    | nil => intro st h; exact h
    | cons ev rest ih =>
      intro st h
      exact ih _ (wellFormed_step P st ev h)
  exact key events RelayState.initial (by decide)

/-- What `disconnect` guarantees in a reachable state: the entries of other sessions and
the log are unchanged, nothing is emitted, and a session without an entry leaves the
registry as it was. -/
theorem disconnect_frame (P : Platform) (st : RelayState) (socket : SocketId)
    (h : Reachable P st) :
    (∀ entry : String × SocketId, entry.2 ≠ socket →
      (entry ∈ (disconnect st socket).1.connectedUsers ↔ entry ∈ st.connectedUsers)) ∧
    (disconnect st socket).1.messages = st.messages ∧
    (disconnect st socket).2 = [] ∧
    ((∀ entry ∈ st.connectedUsers, entry.2 ≠ socket) →
      (disconnect st socket).1.connectedUsers = st.connectedUsers) := by
  have hwf := wellFormed_of_reachable P st h
  refine ⟨?_, rfl, rfl, ?_⟩
  · intro entry hne
    simp only [disconnect]
    rcases disconnectLoop_cases st.connectedUsers socket st.connectedUsers with
      ⟨h1, _⟩ | ⟨octID, hmem, h2⟩
    · rw [h1]
    · rw [h2, mem_mapDelete _ _ hwf]
      constructor
      · exact fun h3 => h3.1
      · intro h3
        refine ⟨h3, ?_⟩
        intro hk
        unfold Registry.WellFormed at hwf
        have := List.inj_on_of_nodup_map hwf h3 hmem hk
        exact hne (by rw [this])
  · intro hnone
    simp only [disconnect]
    rcases disconnectLoop_cases st.connectedUsers socket st.connectedUsers with
      ⟨h1, _⟩ | ⟨octID, hmem, _⟩
    · exact h1
    · exact absurd rfl (hnone _ hmem)

/-- C9, failing input. One session registers two identifiers and disconnects: the state
is reachable, and after the disconnect the registry still maps the second identifier to
the session, because the loop deletes the first matching entry and ends with `break`. -/
theorem disconnect_leaves_stale_entry :
    Reachable testPlatform
      { messages := [], connectedUsers := [("octA", "socketA"), ("octB", "socketA")] } ∧
    (disconnect { messages := [], connectedUsers := [("octA", "socketA"), ("octB", "socketA")] }
      "socketA").1.connectedUsers = [("octB", "socketA")] :=
  ⟨⟨[.register "socketA" "octA", .register "socketA" "octB"], rfl⟩, by decide⟩

/-! ## The stored identity -/

/-- C10, counterexample. With the text `null` stored under the identity key, which is
valid JSON and no identity record, `getStoredIdentity` returns `null` and raises no
error. -/
theorem getStoredIdentity_stored_null :
    (some "null" : Storage) ≠ none ∧
    testPlatform.jsonParse "null" = .ok .null ∧
    getStoredIdentity testPlatform (some "null") = .ok .null :=
  ⟨by decide, rfl, rfl⟩

/-- C10, amended. The function returns `null` exactly when nothing is stored, when the
stored string is empty, or when the stored string parses to `null`; on a non-empty stored
string it returns whatever `JSON.parse` returns, unvalidated, and throws the error that
`JSON.parse` throws. -/
theorem getStoredIdentity_spec (P : Platform) (storage : Storage) :
    (getStoredIdentity P storage = .ok .null ↔
      storage = none ∨ storage = some "" ∨
        ∃ stored, storage = some stored ∧ stored ≠ "" ∧ P.jsonParse stored = .ok .null) ∧
    (∀ stored, storage = some stored → stored ≠ "" →
      getStoredIdentity P storage = P.jsonParse stored) ∧
    (∀ stored e, storage = some stored → stored ≠ "" → P.jsonParse stored = .error e →
      getStoredIdentity P storage = .error e) := by
  refine ⟨?_, ?_, ?_⟩
  · cases storage with
    | none => simp [getStoredIdentity]
    | some stored =>
      by_cases h : stored = ""
      · simp [getStoredIdentity, h]
      · simp [getStoredIdentity, h]
  · intro stored hs hne
    subst hs
    simp [getStoredIdentity, hne]
  · intro stored e hs hne hp
    subst hs
    simp [getStoredIdentity, hne, hp]

/-- Witness of C10 as amended: a stored string that is not JSON. -/
theorem getStoredIdentity_spec_witness :
    getStoredIdentity testPlatform (some "not json") = .error .syntaxError :=
  (getStoredIdentity_spec testPlatform (some "not json")).2.2 "not json" .syntaxError rfl
    (by decide) rfl

end Octchat
